import Mathlib

/-!
Verification of the sniprun interpreter-selection and Python3 pipeline code.

Text is modelled as lists of characters (`Str`); Rust string operations
(`lines`, `contains`, `replace`, `split`, `trim`) are embedded as executable
Lean functions over `Str`.  The launcher's selection scan, the Python3
interpreter's pipeline stages (`fetch_imports`, `fetch_code`,
`add_boilerplate`, `build`, `execute`) and the REPL boilerplate generator
are translated from `src/launcher.rs` and
`src/interpreters/Python3_original.rs`.
-/

namespace Sniprun

/-- Rust strings are modelled as lists of characters. -/
abbrev Str := List Char

/-- Conversion from a Lean string literal to the character-list model. -/
def str (s : String) : Str := s.data

/-- The ASCII single-quote character used by the REPL memo path. -/
def quoteChar : Char := Char.ofNat 39

/-- ASCII whitespace, the characters Rust's `trim`/whitespace removal
handles in the inputs we model. -/
def isWs (c : Char) : Bool := c == ' ' || c == '\t' || c == '\n' || c == '\r'

/-- Rust `str::trim`: remove leading and trailing whitespace. -/
def trimStr (s : Str) : Str :=
  ((s.dropWhile isWs).reverse.dropWhile isWs).reverse

/-- Rust `s.replace(&[' listed chars '][..], "")` for the four whitespace
characters: delete every space, tab, newline and carriage return. -/
def stripWs (s : Str) : Str := s.filter (fun c => !(isWs c))

/-- Rust `s.replace(" ", "")`: delete every space character (only spaces). -/
def stripSpaces (s : Str) : Str := s.filter (fun c => !(c == ' '))

/-- Remove one trailing carriage return, as Rust `lines` does to each line
terminated by a CRLF sequence. -/
def stripCr (s : Str) : Str :=
  if s.getLast? = some '\r' then s.dropLast else s

/-- Rust `str::contains` (substring containment): does `needle` occur as a
contiguous substring of `hay`? -/
def containsStr (hay needle : Str) : Bool :=
  needle.isPrefixOf hay ||
    match hay with
    | [] => false
    | _ :: rest => containsStr rest needle

/-- Rust `str::split(sep)` for a one-character separator: always yields at
least one (possibly empty) piece, with empty pieces between consecutive
separators and at the ends. -/
def splitOnChar (sep : Char) : Str → List Str
  | [] => [[]]
  | c :: rest =>
    if c = sep then [] :: splitOnChar sep rest
    else
      match splitOnChar sep rest with
      | [] => [[c]]
      | t :: ts => (c :: t) :: ts

/-- The maximal suffix of `s` not containing `sep`: the final piece of
`splitOnChar sep s`. -/
def lastChunk (sep : Char) (s : Str) : Str :=
  (s.reverse.takeWhile (fun c => c != sep)).reverse

/-- Rust `str::lines`: split on newline characters; a piece that preceded a
newline has one trailing carriage return removed; the final piece (which
preceded no newline) is kept as is unless it is empty, in which case there
is no final line. -/
def rustLines (s : Str) : List Str :=
  let ps := splitOnChar '\n' s
  let init := (ps.dropLast).map stripCr
  match ps.getLast? with
  | some last => if last = [] then init else init ++ [last]
  | none => init

/-- Fuel-driven worker for `replaceStr`; the fuel is consumed one unit per
character examined, so `s.length` fuel always suffices. -/
def replaceStrFuel (pat rep : Str) : Nat → Str → Str
  | 0, s => s
  | _ + 1, [] => []
  | n + 1, c :: rest =>
    if pat.isPrefixOf (c :: rest) then
      rep ++ replaceStrFuel pat rep n (rest.drop (pat.length - 1))
    else
      c :: replaceStrFuel pat rep n rest

/-- Rust `str::replace`: replace every (leftmost, non-overlapping)
occurrence of `pat` by `rep`. -/
def replaceStr (pat rep s : Str) : Str := replaceStrFuel pat rep s.length s

/-- Number of positions of `s` at which `pat` occurs as a substring. -/
def countSub (pat s : Str) : Nat :=
  ((List.range (s.length + 1)).filter (fun i => pat.isPrefixOf (s.drop i))).length

/-- The text strictly after the first occurrence of `pat` in `s` (empty if
`pat` does not occur). -/
def afterFirst (pat : Str) : Str → Str
  | [] => []
  | c :: rest =>
    if pat.isPrefixOf (c :: rest) then (c :: rest).drop pat.length
    else afterFirst pat rest

/-- Modelled from the spec: the `SupportLevel` enumeration lives in
`interpreter.rs`, which is not among the provided sources.  Spec section 3
describes it as the ordered set Unsupported, Line, Bloc, File, Import,
Selected, with Unsupported minimal and Selected a sentinel outranking all
automatic levels. -/
inductive SupportLevel
  | Unsupported
  | Line
  | Bloc
  | File
  | Import
  | Selected
deriving DecidableEq, Repr

/-- Rank giving the total order on support levels. -/
def SupportLevel.toNat : SupportLevel → Nat
  | .Unsupported => 0
  | .Line => 1
  | .Bloc => 2
  | .File => 3
  | .Import => 4
  | .Selected => 5

instance : LT SupportLevel := ⟨fun a b => a.toNat < b.toNat⟩

instance : LE SupportLevel := ⟨fun a b => a.toNat ≤ b.toNat⟩

instance (a b : SupportLevel) : Decidable (a < b) :=
  inferInstanceAs (Decidable (a.toNat < b.toNat))

instance (a b : SupportLevel) : Decidable (a ≤ b) :=
  inferInstanceAs (Decidable (a.toNat ≤ b.toNat))

/-- Modelled from the spec: the error taxonomy of `error.rs` is not among
the provided sources; spec section 6 lists the variants and their payloads. -/
inductive SniprunError
  | CompilationError
  | RuntimeError (msg : Str)
  | InterpreterError
  | InterpreterLimitationError (msg : Str)
  | CustomError (msg : Str)
deriving DecidableEq, Repr

deriving instance DecidableEq for Except

/-- The per-interpreter static metadata the launcher consults through the
`iter_types!` macro: `get_name`, `get_supported_languages`,
`get_max_support_level` and `default_for_filetype`. -/
structure InterpreterTypeInfo where
  name : Str
  supportedLanguages : List Str
  maxSupportLevel : SupportLevel
  defaultForFiletype : Bool
deriving DecidableEq, Repr

/-- The fields of `DataHolder` (from `main.rs`) that the launcher and the
Python3 interpreter stages consult. -/
structure DataHolder where
  filetype : Str
  current_line : Str
  current_bloc : Str
  selected_interpreters : List Str
deriving DecidableEq, Repr

/-- The scanning loop of `Launcher::select` (`launcher.rs` lines 44 to 67):
the `iter_types!` iteration carrying `skip_all`, `max_level_support` and
`name_best_interpreter`, with the three sequential `if` blocks run for every
registered interpreter supporting the filetype while `skip_all` is unset. -/
def selectLoop (data : DataHolder) :
    List InterpreterTypeInfo → Bool → SupportLevel → Str → SupportLevel × Str
  | [], _, maxLevel, best => (maxLevel, best)
  | cur :: rest, skipAll, maxLevel, best =>
    if !skipAll ∧ data.filetype ∈ cur.supportedLanguages then
      let acc1 : SupportLevel × Str :=
        if maxLevel < cur.maxSupportLevel then (cur.maxSupportLevel, cur.name)
        else (maxLevel, best)
      let acc2 : SupportLevel × Str × Bool :=
        if cur.name ∈ data.selected_interpreters then (SupportLevel.Selected, cur.name, true)
        else (acc1.1, acc1.2, skipAll)
      let acc3 : SupportLevel × Str × Bool :=
        if cur.defaultForFiletype then (cur.maxSupportLevel, cur.name, true)
        else acc2
      selectLoop data rest acc3.2.2 acc3.1 acc3.2.1
    else
      selectLoop data rest skipAll maxLevel best

/-- `Launcher::select` (`launcher.rs` lines 39 to 70): `None` on an empty
filetype, otherwise the pair (name, level) accumulated by the scan, starting
from the sentinel "Generic" at level Unsupported. -/
def select (registry : List InterpreterTypeInfo) (data : DataHolder) :
    Option (Str × SupportLevel) :=
  if data.filetype = [] then none
  else
    let acc := selectLoop data registry false SupportLevel.Unsupported (str "Generic")
    some (acc.2, acc.1)

/-- `Launcher::select_and_run` (`launcher.rs` lines 17 to 37): run the
selected interpreter when its name belongs to the registry, abstracting the
chosen interpreter's `run` as `runInterp`; surface a `CustomError` when no
registered type carries the selected name, or when selection yielded `None`. -/
def select_and_run (registry : List InterpreterTypeInfo)
    (runInterp : Str → SupportLevel → Except SniprunError Str)
    (data : DataHolder) : Except SniprunError Str :=
  match select registry data with
  | some (name, level) =>
    if registry.any (fun i => i.name == name) then runInterp name level
    else Except.error (SniprunError.CustomError
      (str "could not find/run the selected interpreter"))
  | none =>
    Except.error (SniprunError.CustomError (str "No filetype set for current file"))

/-- The mutable working state of a `Python3_original` instance: the code
fragment being assembled and the accumulated import text. -/
structure Python3State where
  code : Str
  imports : Str
deriving DecidableEq, Repr

/-- The token list scanned by the final loop of
`Python3_original::module_used`: replace commas, the substring "from" and
the substring "import " (with its trailing space) by spaces, split on
spaces, and drop empty pieces. -/
def moduleTokens (line : Str) : List Str :=
  (splitOnChar ' '
      (replaceStr (str "import ") (str " ")
        (replaceStr (str "from") (str " ")
          (replaceStr (str ",") (str " ") line)))).filter (fun x => x ≠ [])

/-- `Python3_original::module_used` (`Python3_original.rs` lines 42 to 67):
wildcard marker forces true; an " as " line is decided solely by whether the
last space-separated token occurs in the code; otherwise any token of
`moduleTokens` occurring (trimmed) in the code decides. -/
def module_used (line code : Str) : Bool :=
  if containsStr line (str "*") then true
  else if containsStr line (str " as ") then
    containsStr code ((splitOnChar ' ' line).getLast?.getD [])
  else
    (moduleTokens line).any (fun name => containsStr code (trimStr name))

/-- The body of the `fetch_imports` line loop (`Python3_original.rs` lines
30 to 39): append the line, preceded by a newline, to the accumulated
imports when it contains "import ", does not start (after trimming) with
'#', and is used by the code. -/
def importAccum (code imp line : Str) : Str :=
  if containsStr line (str "import ") = true ∧
     (trimStr line).head? ≠ some '#' ∧
     module_used line code = true then
    imp ++ str "\n" ++ line
  else imp

/-- `Python3_original::fetch_imports` (`Python3_original.rs` lines 13 to 41).
The file contents are passed as `Option Str`: `none` models a failing
open/read, which returns the error before any state change.  On success,
`code` is set to `current_bloc` when the whitespace-stripped bloc is
non-empty, then every file line containing "import ", not starting (after
trimming) with '#', and used by the code is appended to `imports` preceded
by a newline. -/
def fetch_imports (level : SupportLevel) (data : DataHolder)
    (fileContents : Option Str) (st : Python3State) :
    Except Unit Unit × Python3State :=
  if level < SupportLevel.Import then (Except.ok (), st)
  else
    match fileContents with
    | none => (Except.error (), st)
    | some contents =>
      let st1 : Python3State :=
        if stripWs data.current_bloc ≠ [] then { st with code := data.current_bloc }
        else st
      let newImports : Str :=
        (rustLines contents).foldl (importAccum st1.code) st1.imports
      (Except.ok (), { st1 with imports := newImports })

/-- `Python3_original::fetch_code` (`Python3_original.rs` lines 134 to 153):
run `fetch_imports` discarding its result, then populate `code` from the
bloc, the line, or the empty string, according to the level and the
non-blankness checks of the source. -/
def fetch_code (level : SupportLevel) (data : DataHolder)
    (fileContents : Option Str) (st : Python3State) :
    Except SniprunError Unit × Python3State :=
  let st1 := (fetch_imports level data fileContents st).2
  let newCode : Str :=
    if stripWs data.current_bloc ≠ [] ∧ SupportLevel.Bloc ≤ level then
      data.current_bloc
    else if stripSpaces data.current_line ≠ [] ∧ SupportLevel.Line ≤ level then
      data.current_line
    else []
  (Except.ok (), { st1 with code := newCode })

/-- Modelled from the spec: the external `unindent` helper (spec section 4.3
step 2) removes the common leading indentation so the inserted code starts
at column zero; the common indentation is the minimum count of leading
spaces over the non-blank lines. -/
def unindent (s : Str) : Str :=
  let ls := rustLines s
  let indents :=
    (ls.filter (fun l => trimStr l ≠ [])).map
      (fun l => (l.takeWhile (fun c => c == ' ')).length)
  let m := (indents.min?).getD 0
  List.intercalate (str "\n") (ls.map (fun l => l.drop m))

/-- The tab-indented block built from the accumulated import lines by
`Python3_original::add_boilerplate` (lines 156 to 159). -/
def indentedImportBlock (ls : List Str) : Str :=
  ls.foldl (fun acc l => acc ++ str "\t" ++ l ++ str "\n") []

/-- `Python3_original::add_boilerplate` (`Python3_original.rs` lines 154 to
165): when imports are non-empty, wrap all their lines, tab-indented, in one
try/except-pass block; then prepend the (possibly wrapped) imports to the
unindented user code. -/
def add_boilerplate (st : Python3State) : Except SniprunError Unit × Python3State :=
  let newImports : Str :=
    if st.imports ≠ [] then
      str "\ntry:\n" ++ indentedImportBlock (rustLines st.imports) ++
        str "\nexcept:\n\tpass\n"
    else st.imports
  (Except.ok (),
    { code := newImports ++ unindent (str "\n" ++ st.code), imports := newImports })

/-- The captured outcome of the external `python3` process: exit-status
success flag and the fully captured output streams. -/
structure ProcessOutput where
  success : Bool
  stdout : Str
  stderr : Str
deriving DecidableEq, Repr

/-- Outcome of a pipeline stage: a value, a typed error, or a Rust panic
(from `expect`). -/
inductive StageOutcome (α : Type)
  | ok (val : α)
  | err (e : SniprunError)
  | panicked (msg : Str)
deriving DecidableEq, Repr

/-- `Python3_original::build` (`Python3_original.rs` lines 166 to 171): the
file write either succeeds (`none`) or fails with an I/O reason, on which
`expect` panics with that reason appended to its message. -/
def build (writeError : Option Str) : StageOutcome Unit :=
  match writeError with
  | none => StageOutcome.ok ()
  | some reason =>
    StageOutcome.panicked
      (str "Unable to write to file for python3_original: " ++ reason)

/-- `Python3_original::execute` (`Python3_original.rs` lines 172 to 189):
on success return captured stdout verbatim; otherwise a `RuntimeError`
carrying `stderr.lines().last()`, falling back to the whole stderr when
there is no line at all. -/
def execute (out : ProcessOutput) : Except SniprunError Str :=
  if out.success then Except.ok out.stdout
  else
    Except.error (SniprunError.RuntimeError
      (((rustLines out.stderr).getLast?).getD out.stderr))

/-- Modelled from the spec: the pipeline runner of `interpreter.rs` is not
among the provided sources; spec section 4.3 has it drive the four stages in
order, stop at the first failing stage, and never retry; a panic aborts the
run. -/
def runPipeline (level : SupportLevel) (data : DataHolder)
    (fileContents : Option Str) (writeError : Option Str)
    (out : ProcessOutput) : StageOutcome Str :=
  match (fetch_code level data fileContents ⟨[], []⟩) with
  | (Except.error e, _) => StageOutcome.err e
  | (Except.ok (), st1) =>
    match add_boilerplate st1 with
    | (Except.error e, _) => StageOutcome.err e
    | (Except.ok (), _) =>
      match build writeError with
      | StageOutcome.panicked m => StageOutcome.panicked m
      | StageOutcome.err e => StageOutcome.err e
      | StageOutcome.ok () =>
        match execute out with
        | Except.ok s => StageOutcome.ok s
        | Except.error e => StageOutcome.err e

/-- The interpreter name returned by `Python3_original::get_name`. -/
def pyName : Str := str "Python3_original"

/-- Modelled from the spec: the shared `InterpreterData` record of `main.rs`
as used by the REPL state store contract of spec section 4.5, holding the
owning interpreter's name and the persisted content. -/
structure InterpreterData where
  owner : Str
  content : Str
deriving DecidableEq, Repr

/-- Modelled from the spec: `read_previous(owner)` of the REPL state store
(spec section 4.5) — empty if absent or if the owner does not match. -/
def read_previous_code (d : InterpreterData) (name : Str) : Str :=
  if d.owner = name then d.content else []

/-- Modelled from the spec: `save(owner, marker)` of the REPL state store
(spec section 4.5) — record the marker under the given owner. -/
def save_code (name content : Str) : InterpreterData := ⟨name, content⟩

/-- The klepto memo path literal built by `add_boilerplate_repl`
(`Python3_original.rs` line 208). -/
def kleptoMemo (cacheDir : Str) : Str :=
  [quoteChar] ++ cacheDir ++ str "/" ++ str "memo" ++ [quoteChar]

/-- The state-load call injected on non-first REPL runs. -/
def loadCall (cacheDir : Str) : Str :=
  str "sniprun142859_load(" ++ kleptoMemo cacheDir ++ str ")"

/-- The state-save call appended after the user code on REPL runs. -/
def saveCall (cacheDir : Str) : Str :=
  str "sniprun142859_save(" ++ kleptoMemo cacheDir ++ str ")"

/-- `Python3_original::add_boilerplate_repl` (`Python3_original.rs` lines
202 to 239): concatenate imports, the save/load helper functions and — only
when a previous run is recorded — a state-load call; then the unindented
user code and, always, a state-save call.  On a first run the "Not the
first run anymore" sentinel is recorded instead of injecting a load call. -/
def add_boilerplate_repl (pythonFunctions cacheDir : Str)
    (idata : InterpreterData) (st : Python3State) :
    Python3State × InterpreterData :=
  let fc0 := st.imports ++ str "\n" ++ pythonFunctions ++ str "\n"
  if read_previous_code idata pyName = [] then
    let idata1 := save_code pyName (str "Not the first run anymore")
    let fc := fc0 ++ unindent (str "\n" ++ st.code) ++ str "\n" ++ saveCall cacheDir
    ({ st with code := fc }, idata1)
  else
    let fc := fc0 ++ loadCall cacheDir ++ str "\n" ++
      unindent (str "\n" ++ st.code) ++ str "\n" ++ saveCall cacheDir
    ({ st with code := fc }, idata)

/-- The error message as the specification words it: the last non-empty
line of the captured standard error, falling back to the full captured
standard error when no non-empty line exists. -/
def claimedErrorMessage (stderr : Str) : Str :=
  match ((rustLines stderr).filter (fun l => l ≠ [])).getLast? with
  | some l => l
  | none => stderr

/-- The last stderr line as the code actually surfaces it, stated
independently of `splitOnChar`: the maximal newline-free suffix, after
discounting one terminating newline (whose line gets its trailing carriage
return stripped); empty stderr falls back to itself. -/
def lastStderrLine (s : Str) : Str :=
  if s = [] then s
  else if s.getLast? = some '\n' then stripCr (lastChunk '\n' s.dropLast)
  else lastChunk '\n' s

/-- The imported names as the claim describes them for a non-aliasing,
non-wildcard import line: the text after the import keyword, split on
commas, whitespace-trimmed. -/
def claimedImportedNames (line : Str) : List Str :=
  (splitOnChar ',' (afterFirst (str "import ") line)).map trimStr

lemma takeWhile_eq_of_all {α : Type} {p : α → Bool} {l : List α}
    (h : ∀ x ∈ l, p x = true) : l.takeWhile p = l := by
  induction l with
  | nil => rfl
  | cons a t ih =>
    have h1 : p a = true := h a (by simp)
    have h2 := ih fun x hx => h x (by simp [hx])
    simp [List.takeWhile_cons, h1, h2]

lemma takeWhile_append_stop {α : Type} {p : α → Bool} {y : α}
    (hy : p y = false) (l l' : List α) :
    (l ++ y :: l').takeWhile p = l.takeWhile p := by
  induction l with
  | nil => simp [List.takeWhile_cons, hy]
  | cons a t ih =>
    by_cases ha : p a = true
    · simp [List.takeWhile_cons, ha, ih]
    · simp [List.takeWhile_cons, ha]

lemma splitOnChar_cons_self (c : Char) (t : Str) :
    splitOnChar c (c :: t) = [] :: splitOnChar c t := by
  simp [splitOnChar]

lemma splitOnChar_ne_nil (c : Char) (s : Str) : splitOnChar c s ≠ [] := by
  cases s with
  | nil => simp [splitOnChar]
  | cons a t =>
    simp only [splitOnChar]
    split
    · simp
    · split <;> simp

lemma splitOnChar_cons_ne {c a : Char} (ha : a ≠ c) (t u : Str) (us : List Str)
    (hsp : splitOnChar c t = u :: us) :
    splitOnChar c (a :: t) = (a :: u) :: us := by
  simp [splitOnChar, ha, hsp]

lemma splitOnChar_of_not_mem {c : Char} {s : Str} (h : ∀ x ∈ s, x ≠ c) :
    splitOnChar c s = [s] := by
  induction s with
  | nil => rfl
  | cons a t ih =>
    have ha : a ≠ c := h a (by simp)
    have ht := ih fun x hx => h x (by simp [hx])
    rw [splitOnChar_cons_ne ha t t [] ht]

lemma two_le_splitOnChar_length {c : Char} {s : Str} (h : c ∈ s) :
    2 ≤ (splitOnChar c s).length := by
  induction s with
  | nil => cases h
  | cons a t ih =>
    by_cases ha : a = c
    · subst ha
      rw [splitOnChar_cons_self, List.length_cons]
      have h1 : 0 < (splitOnChar a t).length :=
        List.length_pos.mpr (splitOnChar_ne_nil a t)
      omega
    · have ht : c ∈ t := by
        cases h with
        | head => exact absurd rfl ha
        | tail _ h => exact h
      cases hsp : splitOnChar c t with
      | nil => exact absurd hsp (splitOnChar_ne_nil c t)
      | cons u us =>
        rw [splitOnChar_cons_ne ha t u us hsp, List.length_cons]
        have := ih ht
        rw [hsp, List.length_cons] at this
        omega

lemma lastChunk_cons_sep (c : Char) (t : Str) :
    lastChunk c (c :: t) = lastChunk c t := by
  have h1 : (c :: t).reverse = t.reverse ++ c :: [] := by simp
  rw [lastChunk, h1, takeWhile_append_stop (by simp) t.reverse []]
  rfl

lemma getLast?_cons_cons' {α : Type} (a b : α) (l : List α) :
    (a :: b :: l).getLast? = (b :: l).getLast? := rfl

lemma lastChunk_of_not_mem {c : Char} {s : Str} (h : ∀ x ∈ s, x ≠ c) :
    lastChunk c s = s := by
  have hrev : ∀ x ∈ s.reverse, (x != c) = true := by
    intro x hx
    rw [List.mem_reverse] at hx
    simp [h x hx]
  rw [lastChunk, takeWhile_eq_of_all hrev, List.reverse_reverse]

lemma lastChunk_cons_of_mem {c a : Char} {t : Str} (h : c ∈ t) :
    lastChunk c (a :: t) = lastChunk c t := by
  obtain ⟨l1, l2, hsplit⟩ : ∃ l1 l2, t.reverse = l1 ++ c :: l2 :=
    List.append_of_mem (by simp [h])
  have hrt : (a :: t).reverse = t.reverse ++ [a] := by simp
  rw [lastChunk, hrt, hsplit, List.append_assoc, List.cons_append,
    takeWhile_append_stop (by simp) l1 (l2 ++ [a]),
    lastChunk, hsplit, takeWhile_append_stop (by simp) l1 l2]

lemma splitOnChar_getLast? (c : Char) (s : Str) :
    (splitOnChar c s).getLast? = some (lastChunk c s) := by
  induction s with
  | nil => rfl
  | cons a t ih =>
    by_cases ha : a = c
    · subst ha
      rw [lastChunk_cons_sep, splitOnChar_cons_self]
      cases hsp : splitOnChar a t with
      | nil => exact absurd hsp (splitOnChar_ne_nil a t)
      | cons x xs =>
        rw [getLast?_cons_cons']
        rw [hsp] at ih
        exact ih
    · by_cases hall : ∀ x ∈ t, x ≠ c
      · have hall2 : ∀ x ∈ a :: t, x ≠ c := by
          intro x hx
          cases hx with
          | head => exact ha
          | tail _ hx => exact hall x hx
        rw [splitOnChar_of_not_mem hall2, lastChunk_of_not_mem hall2]
        rfl
      · push_neg at hall
        obtain ⟨x, hxt, hxc⟩ := hall
        subst hxc
        have h2 := two_le_splitOnChar_length hxt
        cases hsp : splitOnChar x t with
        | nil => exact absurd hsp (splitOnChar_ne_nil x t)
        | cons u us =>
          cases us with
          | nil => rw [hsp] at h2; simp at h2
          | cons v vs =>
            rw [splitOnChar_cons_ne ha t u (v :: vs) hsp, getLast?_cons_cons']
            rw [hsp, getLast?_cons_cons'] at ih
            rw [ih, lastChunk_cons_of_mem hxt]

lemma splitOnChar_concat_sep (c : Char) (s : Str) :
    splitOnChar c (s ++ [c]) = splitOnChar c s ++ [[]] := by
  induction s with
  | nil => simp [splitOnChar]
  | cons a t ih =>
    by_cases ha : a = c
    · subst ha
      rw [List.cons_append, splitOnChar_cons_self, splitOnChar_cons_self, ih]
      rfl
    · cases hsp : splitOnChar c t with
      | nil => exact absurd hsp (splitOnChar_ne_nil c t)
      | cons u us =>
        have h1 : splitOnChar c (t ++ [c]) = u :: (us ++ [[]]) := by
          rw [ih, hsp]
          rfl
        rw [List.cons_append, splitOnChar_cons_ne ha (t ++ [c]) u (us ++ [[]]) h1,
          splitOnChar_cons_ne ha t u us hsp]
        rfl

lemma lastChunk_concat {c a : Char} (s : Str) (ha : a ≠ c) :
    lastChunk c (s ++ [a]) = lastChunk c s ++ [a] := by
  have h1 : (s ++ [a]).reverse = a :: s.reverse := by simp
  have h2 : (a != c) = true := by simp [ha]
  rw [lastChunk, h1]
  simp only [List.takeWhile_cons, h2, if_true]
  simp [lastChunk]

lemma getLast?_map' {α β : Type} (f : α → β) (l : List α) :
    (l.map f).getLast? = (l.getLast?).map f := by
  induction l with
  | nil => rfl
  | cons a t ih =>
    cases t with
    | nil => rfl
    | cons b u =>
      simp only [List.map_cons] at ih ⊢
      rw [getLast?_cons_cons', ih, getLast?_cons_cons']

lemma rustLines_getLast? (s : Str) :
    ((rustLines s).getLast?).getD s = lastStderrLine s := by
  by_cases hs : s = []
  · subst hs; rfl
  · obtain ⟨t, a, hta⟩ : ∃ L b, s = L ++ [b] := by
      rcases List.eq_nil_or_concat s with h | h
      · exact absurd h hs
      · simpa [List.concat_eq_append] using h
    subst hta
    by_cases han : a = '\n'
    · subst han
      have hps := splitOnChar_concat_sep '\n' t
      have hlast : (splitOnChar '\n' (t ++ ['\n'])).getLast? = some [] := by
        rw [hps]; simp
      have hdrop : (splitOnChar '\n' (t ++ ['\n'])).dropLast = splitOnChar '\n' t := by
        rw [hps]; simp
      have hrl : rustLines (t ++ ['\n']) = (splitOnChar '\n' t).map stripCr := by
        simp [rustLines, hlast, hdrop]
      have hne : t ++ ['\n'] ≠ [] := by simp
      have hgl : (t ++ ['\n']).getLast? = some '\n' := by simp
      rw [hrl, getLast?_map', splitOnChar_getLast?]
      simp only [lastStderrLine, if_neg hne, if_pos hgl, List.dropLast_concat]
      rfl
    · have hlast : (splitOnChar '\n' (t ++ [a])).getLast? =
          some (lastChunk '\n' t ++ [a]) := by
        rw [splitOnChar_getLast?, lastChunk_concat t han]
      have hlastne : ¬(lastChunk '\n' t ++ [a] = []) := by simp
      have hrl : rustLines (t ++ [a]) =
          ((splitOnChar '\n' (t ++ [a])).dropLast).map stripCr ++
            [lastChunk '\n' t ++ [a]] := by
        simp only [rustLines, hlast, if_neg hlastne]
      have hne : t ++ [a] ≠ [] := by simp
      have hgl : (t ++ [a]).getLast? = some a := by simp
      have hgl2 : ¬((t ++ [a]).getLast? = some '\n') := by
        rw [hgl]
        simp [han]
      rw [hrl]
      simp only [List.getLast?_concat, Option.getD_some]
      simp only [lastStderrLine, if_neg hne, if_neg hgl2]
      rw [lastChunk_concat t han]

lemma selectLoop_skip (data : DataHolder) (l : List InterpreterTypeInfo)
    (ml : SupportLevel) (nm : Str) :
    selectLoop data l true ml nm = (ml, nm) := by
  induction l with
  | nil => rfl
  | cons cur rest ih => simp [selectLoop, ih]

lemma selectLoop_unfold (data : DataHolder) (cur : InterpreterTypeInfo)
    (rest : List InterpreterTypeInfo) (ml : SupportLevel) (nm : Str) :
    selectLoop data (cur :: rest) false ml nm =
      if data.filetype ∈ cur.supportedLanguages then
        if cur.defaultForFiletype then
          selectLoop data rest true cur.maxSupportLevel cur.name
        else if cur.name ∈ data.selected_interpreters then
          selectLoop data rest true SupportLevel.Selected cur.name
        else if ml < cur.maxSupportLevel then
          selectLoop data rest false cur.maxSupportLevel cur.name
        else
          selectLoop data rest false ml nm
      else selectLoop data rest false ml nm := by
  by_cases h1 : data.filetype ∈ cur.supportedLanguages
  · by_cases h2 : cur.defaultForFiletype
    · simp [selectLoop, h1, h2]
    · by_cases h3 : cur.name ∈ data.selected_interpreters
      · simp [selectLoop, h1, h2, h3]
      · by_cases h4 : ml < cur.maxSupportLevel
        · simp [selectLoop, h1, h2, h3, h4]
        · simp [selectLoop, h1, h2, h3, h4]
  · simp [selectLoop, h1]

lemma selectLoop_no_match (data : DataHolder) {l : List InterpreterTypeInfo}
    (h : ∀ i ∈ l, data.filetype ∉ i.supportedLanguages)
    (sk : Bool) (ml : SupportLevel) (nm : Str) :
    selectLoop data l sk ml nm = (ml, nm) := by
  induction l with
  | nil => rfl
  | cons cur rest ih =>
    have hc : data.filetype ∉ cur.supportedLanguages := h cur (by simp)
    have ht := ih fun i hi => h i (by simp [hi])
    simp [selectLoop, hc, ht]

lemma selectLoop_selected_hit (data : DataHolder) (I : InterpreterTypeInfo)
    (post : List InterpreterTypeInfo)
    (hIsup : data.filetype ∈ I.supportedLanguages)
    (hIsel : I.name ∈ data.selected_interpreters)
    (hIdef : I.defaultForFiletype = false) :
    ∀ (pre : List InterpreterTypeInfo),
      (∀ J ∈ pre, data.filetype ∈ J.supportedLanguages →
        J.name ∉ data.selected_interpreters ∧ J.defaultForFiletype = false) →
      ∀ (ml : SupportLevel) (nm : Str),
        selectLoop data (pre ++ I :: post) false ml nm =
          (SupportLevel.Selected, I.name) := by
  intro pre
  induction pre with
  | nil =>
    intro _ ml nm
    rw [List.nil_append, selectLoop_unfold, if_pos hIsup, if_neg (by simp [hIdef]),
      if_pos hIsel, selectLoop_skip]
  | cons J pre' ih =>
    intro hpre ml nm
    have hrest : ∀ K ∈ pre', data.filetype ∈ K.supportedLanguages →
        K.name ∉ data.selected_interpreters ∧ K.defaultForFiletype = false :=
      fun K hK => hpre K (List.mem_cons_of_mem J hK)
    rw [List.cons_append, selectLoop_unfold]
    by_cases hJs : data.filetype ∈ J.supportedLanguages
    · obtain ⟨hJsel, hJdef⟩ := hpre J (by simp) hJs
      rw [if_pos hJs, if_neg (by simp [hJdef]), if_neg hJsel]
      by_cases hlt : ml < J.maxSupportLevel
      · rw [if_pos hlt, ih hrest]
      · rw [if_neg hlt, ih hrest]
    · rw [if_neg hJs, ih hrest]

lemma foldl_importAccum_shape (code : Str) (ls : List Str) :
    ∀ init : Str, ∃ kept : List Str,
      ls.foldl (importAccum code) init =
        init ++ (kept.map fun l => str "\n" ++ l).flatten ∧
      ∀ l ∈ kept, containsStr l (str "import ") = true ∧
        (trimStr l).head? ≠ some '#' ∧ module_used l code = true := by
  induction ls with
  | nil => intro init; exact ⟨[], by simp, by simp⟩
  | cons line rest ih =>
    intro init
    by_cases hc : containsStr line (str "import ") = true ∧
        (trimStr line).head? ≠ some '#' ∧ module_used line code = true
    · obtain ⟨kept, heq, hall⟩ := ih (init ++ str "\n" ++ line)
      refine ⟨line :: kept, ?_, ?_⟩
      · rw [List.foldl_cons, importAccum, if_pos hc, heq]
        simp [List.append_assoc]
      · intro l hl
        cases hl with
        | head => exact hc
        | tail _ hl => exact hall l hl
    · obtain ⟨kept, heq, hall⟩ := ih init
      refine ⟨kept, ?_, hall⟩
      rw [List.foldl_cons, importAccum, if_neg hc, heq]

lemma foldl_indent_shift (ls : List Str) :
    ∀ acc : Str,
      ls.foldl (fun acc l => acc ++ str "\t" ++ l ++ str "\n") acc =
        acc ++ indentedImportBlock ls := by
  induction ls with
  | nil => intro acc; simp [indentedImportBlock]
  | cons l rest ih =>
    intro acc
    rw [List.foldl_cons, ih]
    conv_rhs => unfold indentedImportBlock
    rw [List.foldl_cons, ih]
    simp only [List.nil_append, List.append_assoc]

lemma indentedImportBlock_cons (l : Str) (rest : List Str) :
    indentedImportBlock (l :: rest) =
      (str "\t" ++ l ++ str "\n") ++ indentedImportBlock rest := by
  conv_lhs => unfold indentedImportBlock
  rw [List.foldl_cons, foldl_indent_shift]
  simp only [List.nil_append, List.append_assoc]

lemma indentedImportBlock_extract {ls : List Str} {l : Str} (h : l ∈ ls) :
    ∃ a b, indentedImportBlock ls = a ++ (str "\t" ++ l ++ str "\n") ++ b := by
  induction ls with
  | nil => cases h
  | cons l' rest ih =>
    have hblock := indentedImportBlock_cons l' rest
    cases h with
    | head =>
      exact ⟨[], indentedImportBlock rest, by rw [hblock]; simp⟩
    | tail _ h =>
      obtain ⟨a, b, hab⟩ := ih h
      exact ⟨(str "\t" ++ l' ++ str "\n") ++ a, b, by
        rw [hblock, hab]; simp [List.append_assoc]⟩

/-- C1, counterexample: interpreter A declares `default_for_filetype` and is
scanned before interpreter B; B supports the non-empty filetype and is named
by `selected_interpreters`, yet `select` returns A with A's max level — the
explicit selection is neither absolute nor does it terminate the search,
because an earlier default interpreter sets `skip_all` first. -/
theorem c1_selected_counterexample :
    str "py" ≠ ([] : Str) ∧
    str "py" ∈ (InterpreterTypeInfo.mk (str "B") [str "py"] SupportLevel.Line
      false).supportedLanguages ∧
    (InterpreterTypeInfo.mk (str "B") [str "py"] SupportLevel.Line false).name ∈
      (DataHolder.mk (str "py") [] [] [str "B"]).selected_interpreters ∧
    select [InterpreterTypeInfo.mk (str "A") [str "py"] SupportLevel.Bloc true,
        InterpreterTypeInfo.mk (str "B") [str "py"] SupportLevel.Line false]
      (DataHolder.mk (str "py") [] [] [str "B"]) =
      some (str "A", SupportLevel.Bloc) ∧
    select [InterpreterTypeInfo.mk (str "A") [str "py"] SupportLevel.Bloc true,
        InterpreterTypeInfo.mk (str "B") [str "py"] SupportLevel.Line false]
      (DataHolder.mk (str "py") [] [] [str "B"]) ≠
      some (str "B", SupportLevel.Selected) := by
  refine ⟨by decide, by decide, by decide, by decide, by decide⟩

/-- C1 (amended): for every execution context with a non-empty filetype
whose `selected_interpreters` names a registered interpreter supporting that
filetype, `Launcher::select` returns that interpreter's name paired with the
Selected support level and stops scanning there (the interpreters after it
are irrelevant), provided the scan reaches it — no earlier interpreter
supporting the filetype is itself selected or declares
`default_for_filetype` — and provided the named interpreter does not itself
declare `default_for_filetype` (both of which would otherwise override the
level or stop the scan early). -/
theorem c1_selected_amended (data : DataHolder)
    (pre post : List InterpreterTypeInfo) (I : InterpreterTypeInfo)
    (hft : data.filetype ≠ [])
    (hIsup : data.filetype ∈ I.supportedLanguages)
    (hIsel : I.name ∈ data.selected_interpreters)
    (hIdef : I.defaultForFiletype = false)
    (hpre : ∀ J ∈ pre, data.filetype ∈ J.supportedLanguages →
      J.name ∉ data.selected_interpreters ∧ J.defaultForFiletype = false) :
    select (pre ++ I :: post) data = some (I.name, SupportLevel.Selected) := by
  simp only [select, if_neg hft]
  rw [selectLoop_selected_hit data I post hIsup hIsel hIdef pre hpre]

/-- C1 witness: a concrete one-interpreter registry on which the amended
claim applies and evaluates as stated. -/
theorem c1_selected_amended_witness :
    select [InterpreterTypeInfo.mk (str "B") [str "py"] SupportLevel.Line false]
      (DataHolder.mk (str "py") [] [] [str "B"]) =
      some (str "B", SupportLevel.Selected) :=
  c1_selected_amended (DataHolder.mk (str "py") [] [] [str "B"]) [] []
    (InterpreterTypeInfo.mk (str "B") [str "py"] SupportLevel.Line false)
    (by decide) (by decide) (by decide) rfl (by simp)

/-- C5: for every filetype supported both by an interpreter D declaring
`default_for_filetype` and by another interpreter H with strictly higher max
support level (H not itself a declared default), when the selection set
names neither, `select` returns D paired with D's own max support level, in
whichever order the registry presents the two. -/
theorem c5_default_beats_capability (data : DataHolder)
    (D H : InterpreterTypeInfo)
    (hft : data.filetype ≠ [])
    (hDsup : data.filetype ∈ D.supportedLanguages)
    (hHsup : data.filetype ∈ H.supportedLanguages)
    (hDdef : D.defaultForFiletype = true)
    (hHdef : H.defaultForFiletype = false)
    (_hDsel : D.name ∉ data.selected_interpreters)
    (hHsel : H.name ∉ data.selected_interpreters)
    (hlt : D.maxSupportLevel < H.maxSupportLevel) :
    select [D, H] data = some (D.name, D.maxSupportLevel) ∧
    select [H, D] data = some (D.name, D.maxSupportLevel) := by
  constructor
  · simp only [select, if_neg hft]
    rw [selectLoop_unfold, if_pos hDsup, if_pos hDdef, selectLoop_skip]
  · simp only [select, if_neg hft]
    have hlt' : SupportLevel.toNat D.maxSupportLevel <
        SupportLevel.toNat H.maxSupportLevel := hlt
    have h0 : SupportLevel.Unsupported < H.maxSupportLevel :=
      Nat.lt_of_le_of_lt (Nat.zero_le _) hlt'
    rw [selectLoop_unfold, if_pos hHsup, if_neg (by simp [hHdef]),
      if_neg hHsel, if_pos h0, selectLoop_unfold, if_pos hDsup, if_pos hDdef,
      selectLoop_skip]

/-- C5 witness: a concrete default interpreter D at level Line and a
capability-richer H at level Bloc; D wins in both scan orders. -/
theorem c5_default_beats_capability_witness :
    select [InterpreterTypeInfo.mk (str "D") [str "py"] SupportLevel.Line true,
        InterpreterTypeInfo.mk (str "H") [str "py"] SupportLevel.Bloc false]
      (DataHolder.mk (str "py") [] [] []) =
      some (str "D", SupportLevel.Line) ∧
    select [InterpreterTypeInfo.mk (str "H") [str "py"] SupportLevel.Bloc false,
        InterpreterTypeInfo.mk (str "D") [str "py"] SupportLevel.Line true]
      (DataHolder.mk (str "py") [] [] []) =
      some (str "D", SupportLevel.Line) :=
  c5_default_beats_capability (DataHolder.mk (str "py") [] [] [])
    (InterpreterTypeInfo.mk (str "D") [str "py"] SupportLevel.Line true)
    (InterpreterTypeInfo.mk (str "H") [str "py"] SupportLevel.Bloc false)
    (by decide) (by decide) (by decide) rfl rfl (by decide) (by decide)
    (by decide)

/-- C6: `select` returns `None` exactly on an empty filetype, in which case
`select_and_run` surfaces the no-filetype `CustomError`; every non-empty
filetype yields `Some`, and when no registered interpreter supports the
filetype the sentinel pair ("Generic", Unsupported) is returned, which the
caller surfaces as a `CustomError` (no interpreter type carries the
sentinel name) instead of running anything. -/
theorem c6_select_none_and_sentinel (registry : List InterpreterTypeInfo)
    (data : DataHolder)
    (runInterp : Str → SupportLevel → Except SniprunError Str) :
    (select registry data = none ↔ data.filetype = []) ∧
    (data.filetype = [] →
      select_and_run registry runInterp data =
        Except.error (SniprunError.CustomError
          (str "No filetype set for current file"))) ∧
    (data.filetype ≠ [] → ∃ r, select registry data = some r) ∧
    ((∀ i ∈ registry, data.filetype ∉ i.supportedLanguages) →
      data.filetype ≠ [] →
      select registry data = some (str "Generic", SupportLevel.Unsupported) ∧
      ((∀ i ∈ registry, i.name ≠ str "Generic") →
        select_and_run registry runInterp data =
          Except.error (SniprunError.CustomError
            (str "could not find/run the selected interpreter")))) := by
  refine ⟨?_, ?_, ?_, ?_⟩
  · by_cases hft : data.filetype = [] <;> simp [select, hft]
  · intro hft
    simp [select_and_run, select, hft]
  · intro hft
    exact ⟨((selectLoop data registry false SupportLevel.Unsupported (str "Generic")).2,
            (selectLoop data registry false SupportLevel.Unsupported (str "Generic")).1),
      by simp [select, hft]⟩
  · intro hno hft
    have hsel : select registry data =
        some (str "Generic", SupportLevel.Unsupported) := by
      simp only [select, if_neg hft]
      rw [selectLoop_no_match data hno]
    refine ⟨hsel, ?_⟩
    intro hg
    have hany : ¬(registry.any (fun i => i.name == str "Generic") = true) := by
      rw [List.any_eq_true]
      push_neg
      intro i hi
      simp [hg i hi]
    simp only [select_and_run, hsel, if_neg hany]

/-- C6 witness: a registry whose only interpreter does not support the
context's filetype, and the empty-filetype context. -/
theorem c6_select_none_and_sentinel_witness :
    select [InterpreterTypeInfo.mk (str "A") [str "rust"] SupportLevel.Bloc false]
      (DataHolder.mk (str "py") [] [] []) =
      some (str "Generic", SupportLevel.Unsupported) ∧
    select_and_run [InterpreterTypeInfo.mk (str "A") [str "rust"] SupportLevel.Bloc false]
      (fun _ _ => Except.ok []) (DataHolder.mk [] [] [] []) =
      Except.error (SniprunError.CustomError
        (str "No filetype set for current file")) :=
  ⟨(c6_select_none_and_sentinel
      [InterpreterTypeInfo.mk (str "A") [str "rust"] SupportLevel.Bloc false]
      (DataHolder.mk (str "py") [] [] []) (fun _ _ => Except.ok [])).2.2.2
        (by decide) (by decide) |>.1,
   (c6_select_none_and_sentinel
      [InterpreterTypeInfo.mk (str "A") [str "rust"] SupportLevel.Bloc false]
      (DataHolder.mk [] [] [] []) (fun _ _ => Except.ok [])).2.1 rfl⟩


/-- C2, counterexample: on stderr "oops\n\n" the process-failure branch of
`execute` surfaces the empty final line, not the last non-empty line "oops"
that the claim specifies. -/
theorem c2_execute_counterexample :
    execute (ProcessOutput.mk false [] (str "oops\n\n")) =
      Except.error (SniprunError.RuntimeError []) ∧
    claimedErrorMessage (str "oops\n\n") = str "oops" ∧
    execute (ProcessOutput.mk false [] (str "oops\n\n")) ≠
      Except.error (SniprunError.RuntimeError
        (claimedErrorMessage (str "oops\n\n"))) := by
  refine ⟨by decide, by decide, by decide⟩

/-- C2 (amended): on a non-zero exit status the result is `RuntimeError(m)`
where m is the last line of the captured standard error under Rust line
semantics — a terminating newline closes the last line rather than opening
an empty one, a trailing carriage return of that line is stripped, and the
line may be empty — falling back to the full (necessarily empty) captured
stderr only when stderr has no line at all; on a zero exit status the
result is the captured standard output verbatim. -/
theorem c2_execute_amended (out : ProcessOutput) :
    execute out =
      if out.success then Except.ok out.stdout
      else Except.error (SniprunError.RuntimeError (lastStderrLine out.stderr)) := by
  cases hsucc : out.success with
  | true => simp [execute, hsucc]
  | false =>
    simp only [execute, hsucc, Bool.false_eq_true, if_false]
    rw [rustLines_getLast?]

/-- C4, counterexample: at level Line with an all-whitespace bloc and the
one-space line " ", `fetch_code` leaves `code` empty although the claim
("otherwise current_line when the level is at least Line and the line is
non-empty") requires `code` to become the non-empty line " ". -/
theorem c4_fetch_code_counterexample :
    (fetch_code SupportLevel.Line (DataHolder.mk (str "py") (str " ") [] [])
      none (Python3State.mk [] [])).2.code = [] ∧
    (DataHolder.mk (str "py") (str " ") [] []).current_line ≠ [] ∧
    stripWs (DataHolder.mk (str "py") (str " ") [] []).current_bloc = [] ∧
    (fetch_code SupportLevel.Line (DataHolder.mk (str "py") (str " ") [] [])
        none (Python3State.mk [] [])).2.code ≠
      (DataHolder.mk (str "py") (str " ") [] []).current_line := by
  refine ⟨by decide, by decide, by decide, by decide⟩

/-- C4 (amended): for every execution context and active support level,
`fetch_code` returns Ok — in particular when import discovery fails because
the source file cannot be read (`fileContents = none`) — and afterwards the
interpreter's code equals: `current_bloc` when the level is at least Bloc
and the bloc with all whitespace removed is non-empty; otherwise
`current_line` when the level is at least Line and the line with all space
characters removed is non-empty; otherwise the empty string. -/
theorem c4_fetch_code_amended (level : SupportLevel) (data : DataHolder)
    (fileContents : Option Str) (st : Python3State) :
    (fetch_code level data fileContents st).1 = Except.ok () ∧
    (fetch_code level data fileContents st).2.code =
      (if stripWs data.current_bloc ≠ [] ∧ SupportLevel.Bloc ≤ level then
        data.current_bloc
      else if stripSpaces data.current_line ≠ [] ∧ SupportLevel.Line ≤ level then
        data.current_line
      else []) :=
  ⟨rfl, rfl⟩

/-- C3, counterexample: two import lines are discovered (accumulated as
a newline-joined string by `fetch_imports`), yet the generated program
contains exactly one try-guard opener — the lines share a single guard
instead of each being wrapped independently in its own guard. -/
theorem c3_add_boilerplate_counterexample :
    ((rustLines (str "\nimport a\nimport b")).filter
      (fun l => containsStr l (str "import "))).length = 2 ∧
    countSub (str "try:")
      (add_boilerplate (Python3State.mk (str "print(1)")
        (str "\nimport a\nimport b"))).2.code = 1 := by
  refine ⟨by decide, by decide⟩

/-- C3 (amended): all discovered import lines are wrapped together,
tab-indented, in one shared failure-tolerant try/except-pass guard, each
line appearing inside that single guard; the main user code is emitted
after (outside) the guard, so a missing module cannot prevent the main
code from running, but it does abort the remaining imports of the shared
guard. -/
theorem c3_add_boilerplate_amended (st : Python3State) (h : st.imports ≠ []) :
    (add_boilerplate st).1 = Except.ok () ∧
    (add_boilerplate st).2.code =
      str "\ntry:\n" ++ indentedImportBlock (rustLines st.imports) ++
        str "\nexcept:\n\tpass\n" ++ unindent (str "\n" ++ st.code) ∧
    ∀ l ∈ rustLines st.imports, ∃ a b,
      (add_boilerplate st).2.code =
        (str "\ntry:\n" ++ a) ++ (str "\t" ++ l ++ str "\n") ++
          (b ++ str "\nexcept:\n\tpass\n" ++ unindent (str "\n" ++ st.code)) := by
  have h2 : (add_boilerplate st).2.code =
      str "\ntry:\n" ++ indentedImportBlock (rustLines st.imports) ++
        str "\nexcept:\n\tpass\n" ++ unindent (str "\n" ++ st.code) := by
    simp only [add_boilerplate, if_pos h]
  refine ⟨rfl, h2, ?_⟩
  intro l hl
  obtain ⟨a, b, hab⟩ := indentedImportBlock_extract hl
  refine ⟨a, b, ?_⟩
  rw [h2, hab]
  simp only [List.append_assoc]

/-- C3 witness: the amended claim applied to a concrete one-import state. -/
theorem c3_add_boilerplate_amended_witness :
    (add_boilerplate (Python3State.mk (str "print(1)") (str "\nimport a"))).2.code =
      str "\ntry:\n" ++ indentedImportBlock (rustLines (str "\nimport a")) ++
        str "\nexcept:\n\tpass\n" ++
        unindent (str "\n" ++ (Python3State.mk (str "print(1)")
          (str "\nimport a")).code) :=
  (c3_add_boilerplate_amended
    (Python3State.mk (str "print(1)") (str "\nimport a")) (by decide)).2.1

lemma containsStr_cons (c : Char) (rest needle : Str) :
    containsStr (c :: rest) needle =
      (needle.isPrefixOf (c :: rest) || containsStr rest needle) := rfl

lemma isPrefixOf_append_self (m r : Str) : m.isPrefixOf (m ++ r) = true := by
  induction m with
  | nil => simp [List.isPrefixOf]
  | cons a as ih => simp [List.isPrefixOf, ih]

lemma containsStr_of_prefix {hay needle : Str}
    (h : needle.isPrefixOf hay = true) : containsStr hay needle = true := by
  cases hay with
  | nil =>
    cases needle with
    | nil => rfl
    | cons b bs => simp [List.isPrefixOf] at h
  | cons a rest => rw [containsStr_cons, h, Bool.true_or]

lemma containsStr_append_middle (x m y : Str) :
    containsStr (x ++ m ++ y) m = true := by
  induction x with
  | nil =>
    rw [List.nil_append]
    exact containsStr_of_prefix (isPrefixOf_append_self m y)
  | cons a xs ih =>
    have h1 : (a :: xs) ++ m ++ y = a :: (xs ++ m ++ y) := by simp
    rw [h1, containsStr_cons, ih, Bool.or_true]

lemma lastChunk_alias (l1 a : Str) (ha : ∀ c ∈ a, c ≠ ' ') :
    lastChunk ' ' (l1 ++ str " as " ++ a) = a := by
  have h4 : (str " as ").reverse = ' ' :: str "sa " := by decide
  have hrev : (l1 ++ str " as " ++ a).reverse =
      a.reverse ++ ' ' :: (str "sa " ++ l1.reverse) := by
    rw [List.reverse_append, List.reverse_append, h4]
    simp [List.append_assoc]
  have hall : ∀ c ∈ a.reverse, (c != ' ') = true := by
    intro c hc
    rw [List.mem_reverse] at hc
    simp [ha c hc]
  rw [lastChunk, hrev, takeWhile_append_stop (by simp) a.reverse _,
    takeWhile_eq_of_all hall, List.reverse_reverse]

lemma fetch_imports_proceed {level : SupportLevel}
    (h : ¬(level < SupportLevel.Import)) (data : DataHolder) (contents : Str)
    (st : Python3State) :
    fetch_imports level data (some contents) st =
      (Except.ok (),
        Python3State.mk
          (if stripWs data.current_bloc ≠ [] then data.current_bloc else st.code)
          ((rustLines contents).foldl
            (importAccum
              (if stripWs data.current_bloc ≠ [] then data.current_bloc
               else st.code))
            st.imports)) := by
  by_cases hb : stripWs data.current_bloc ≠ []
  · simp [fetch_imports, h, hb]
  · simp [fetch_imports, h, hb]

/-- C7, counterexample: the line contains the single comma-separated
imported name "fromage", which does not occur in the fragment "page"; the
claim therefore requires false, but `module_used` answers true, because the
textual replacement of the substring "from" mangles the name into the token
"age", which does occur in "page". -/
theorem c7_module_used_counterexample :
    module_used (str "import fromage") (str "page") = true ∧
    claimedImportedNames (str "import fromage") = [str "fromage"] ∧
    containsStr (str "page") (str "fromage") = false ∧
    containsStr (str "import fromage") (str "*") = false ∧
    containsStr (str "import fromage") (str " as ") = false := by
  refine ⟨by decide, by decide, by decide, by decide, by decide⟩

/-- C7 (amended): `module_used` returns true whenever the line contains a
wildcard marker; for a line of the aliasing form (ending in " as " followed
by a space-free alias) without a wildcard it returns true iff the alias
occurs in the fragment; otherwise it returns true iff some token obtained
by replacing commas, the substring "from" and the substring "import " by
spaces and splitting on spaces (a textual mangle that can corrupt names
containing "from") occurs, trimmed, in the fragment; and `fetch_imports`
never injects a line whose first trimmed character is '#'. -/
theorem c7_module_used_amended (line code : Str) :
    (containsStr line (str "*") = true → module_used line code = true) ∧
    (containsStr line (str "*") = false →
      ∀ l1 a, line = l1 ++ str " as " ++ a → (∀ c ∈ a, c ≠ ' ') →
        (module_used line code = true ↔ containsStr code a = true)) ∧
    (containsStr line (str "*") = false →
      containsStr line (str " as ") = false →
      (module_used line code = true ↔
        ∃ n ∈ moduleTokens line, containsStr code (trimStr n) = true)) ∧
    (∀ (level : SupportLevel) (data : DataHolder) (contents : Str)
        (st : Python3State), SupportLevel.Import ≤ level →
      ∃ kept : List Str,
        (fetch_imports level data (some contents) st).2.imports =
          st.imports ++ (kept.map fun l => str "\n" ++ l).flatten ∧
        ∀ l ∈ kept, (trimStr l).head? ≠ some '#') := by
  refine ⟨?_, ?_, ?_, ?_⟩
  · intro hw
    simp [module_used, hw]
  · intro hw l1 a hline ha
    have has : containsStr line (str " as ") = true := by
      rw [hline]
      exact containsStr_append_middle l1 (str " as ") a
    rw [module_used, hw, if_neg (by simp), if_pos has, splitOnChar_getLast?,
      hline, lastChunk_alias l1 a ha]
    exact Iff.rfl
  · intro hw has
    rw [module_used, hw, if_neg (by simp), has, if_neg (by simp)]
    exact List.any_eq_true
  · intro level data contents st hlev
    have hnlt : ¬(level < SupportLevel.Import) := by
      intro hlt
      exact absurd (Nat.lt_of_le_of_lt hlev hlt) (Nat.lt_irrefl _)
    rw [fetch_imports_proceed hnlt]
    obtain ⟨kept, heq, hall⟩ :=
      foldl_importAccum_shape
        (if stripWs data.current_bloc ≠ [] then data.current_bloc else st.code)
        (rustLines contents) st.imports
    exact ⟨kept, heq, fun l hl => (hall l hl).2.1⟩

/-- C7 witness: an aliased import whose alias occurs in the fragment. -/
theorem c7_module_used_amended_witness :
    module_used (str "import numpy as np") (str "np.array(1)") = true :=
  ((c7_module_used_amended (str "import numpy as np") (str "np.array(1)")).2.1
    (by decide) (str "import numpy") (str "np") (by decide) (by decide)).mpr
    (by decide)

/-- C8: in REPL mode, a first run (empty persisted state) records the "Not
the first run anymore" sentinel and generates code with no state-load call
(shown structurally, and by evaluation on a concrete first run); a
subsequent run leaves the persisted state unchanged and injects a
state-load call before the user code and a state-save call after it. -/
theorem c8_repl_first_vs_later (pythonFunctions cacheDir : Str)
    (idata : InterpreterData) (st : Python3State) :
    (read_previous_code idata pyName = [] →
      (add_boilerplate_repl pythonFunctions cacheDir idata st).2 =
        save_code pyName (str "Not the first run anymore") ∧
      (add_boilerplate_repl pythonFunctions cacheDir idata st).1.code =
        st.imports ++ str "\n" ++ pythonFunctions ++ str "\n" ++
          unindent (str "\n" ++ st.code) ++ str "\n" ++ saveCall cacheDir) ∧
    (read_previous_code idata pyName ≠ [] →
      (add_boilerplate_repl pythonFunctions cacheDir idata st).2 = idata ∧
      ∃ pre mid,
        (add_boilerplate_repl pythonFunctions cacheDir idata st).1.code =
          pre ++ loadCall cacheDir ++ mid ++ saveCall cacheDir ∧
        pre = st.imports ++ str "\n" ++ pythonFunctions ++ str "\n" ∧
        mid = str "\n" ++ unindent (str "\n" ++ st.code) ++ str "\n") ∧
    containsStr ((add_boilerplate_repl [] [] (InterpreterData.mk [] [])
      (Python3State.mk [] [])).1.code) (str "sniprun142859_load(") = false := by
  refine ⟨?_, ?_, by decide⟩
  · intro h
    constructor
    · simp only [add_boilerplate_repl, if_pos h]
    · simp only [add_boilerplate_repl, if_pos h, List.append_assoc]
  · intro h
    constructor
    · simp only [add_boilerplate_repl, if_neg h]
    · refine ⟨st.imports ++ str "\n" ++ pythonFunctions ++ str "\n",
        str "\n" ++ unindent (str "\n" ++ st.code) ++ str "\n", ?_, rfl, rfl⟩
      simp only [add_boilerplate_repl, if_neg h, List.append_assoc]

/-- C8 witness: the persisted-state transitions of a concrete first run and
a concrete subsequent run. -/
theorem c8_repl_first_vs_later_witness :
    (add_boilerplate_repl [] [] (InterpreterData.mk [] [])
        (Python3State.mk [] [])).2 =
      save_code pyName (str "Not the first run anymore") ∧
    (add_boilerplate_repl [] [] (InterpreterData.mk pyName (str "x"))
        (Python3State.mk [] [])).2 =
      InterpreterData.mk pyName (str "x") :=
  ⟨((c8_repl_first_vs_later [] [] (InterpreterData.mk [] [])
      (Python3State.mk [] [])).1 (by decide)).1,
   ((c8_repl_first_vs_later [] [] (InterpreterData.mk pyName (str "x"))
      (Python3State.mk [] [])).2.1 (by decide)).1⟩

/-- C9: when writing the generated entry file fails, `build` panics with a
message carrying the underlying file-system reason, the pipeline aborts
with that panic, and the outcome is the same whatever the external process
would have produced — the execute stage is never reached and nothing is
retried. -/
theorem c9_build_failure_aborts (level : SupportLevel) (data : DataHolder)
    (fileContents : Option Str) (reason : Str) (out out' : ProcessOutput) :
    build (some reason) =
      StageOutcome.panicked
        (str "Unable to write to file for python3_original: " ++ reason) ∧
    runPipeline level data fileContents (some reason) out =
      StageOutcome.panicked
        (str "Unable to write to file for python3_original: " ++ reason) ∧
    runPipeline level data fileContents (some reason) out =
      runPipeline level data fileContents (some reason) out' :=
  ⟨rfl, rfl, rfl⟩

/-- C10: `add_boilerplate_repl` always appends the state-save call after
the user code — also on the very first run — and only the state-load call
(with its trailing newline) is conditional on a previous run having been
recorded. -/
theorem c10_repl_save_every_run (pythonFunctions cacheDir : Str)
    (idata : InterpreterData) (st : Python3State) :
    (add_boilerplate_repl pythonFunctions cacheDir idata st).1.code =
      st.imports ++ str "\n" ++ pythonFunctions ++ str "\n" ++
        (if read_previous_code idata pyName = [] then []
         else loadCall cacheDir ++ str "\n") ++
        unindent (str "\n" ++ st.code) ++ str "\n" ++ saveCall cacheDir := by
  by_cases h : read_previous_code idata pyName = []
  · simp only [add_boilerplate_repl, if_pos h]
    simp only [List.append_assoc, List.nil_append, List.append_nil]
  · simp only [add_boilerplate_repl, if_neg h]
    simp only [List.append_assoc, List.nil_append, List.append_nil]

end Sniprun
